import Mathlib

/-!
Verification of the sales-document question-answering agents.

The development shallowly embeds the routing and query-handler logic of
`advanced_sales_agent.py`, `basic_sales_agent.py` and the header handling of
`sales_data_loader.py`.  Tables are lists of rows; a row is a product name
(the `Product Name` column) together with the cells of the remaining columns.
A cell is `Option ℚ`: `some q` a numeric value, `none` a missing value (NaN);
pandas sums skip NaN (`skipna`), which the model renders as contributing 0.
Python strings are Lean `String`s, `str.lower()` is a per-character lowering,
and the `in` substring test is infix containment of character lists.
-/

/- The Batteries rational operations are `@[irreducible]`, which blocks the
`decide` evaluation of concrete tables; restoring the default transparency
only affects elaboration (kernel checking is unchanged). -/
set_option allowUnsafeReducibility true in
attribute [semireducible] Rat.add Rat.mul Rat.inv Rat.sub Rat.ofScientific Rat.neg Rat.div

/-- Python `str.lower()`: lower every character. -/
def pyLower (s : String) : String :=
  String.mk (s.data.map Char.toLower)

/-- Python `needle in hay` on strings: `needle` occurs as a contiguous
substring of `hay`. -/
def strContains (hay needle : String) : Bool :=
  decide (needle.data <:+: hay.data)

/-- Python `re.match(r"^\d{4}-\d{2}$", col)`: four digits, a dash, two digits,
where the trailing `$` also accepts a final newline. -/
def isMonthCol (s : String) : Bool :=
  match s.data with
  | [a, b, c, d, e, f, g] =>
      a.isDigit && b.isDigit && c.isDigit && d.isDigit && (e == '-') && f.isDigit && g.isDigit
  | [a, b, c, d, e, f, g, h] =>
      a.isDigit && b.isDigit && c.isDigit && d.isDigit && (e == '-') && f.isDigit && g.isDigit
        && (h == '\n')
  | _ => false

/-- The intents the router can choose (`router` returns the tool's name as a
string in the source; the four possible strings become this enumeration). -/
inductive Intent where
  | productSales
  | topProducts
  | monthlySales
  | generalQuery
deriving DecidableEq

/-- The branch cascade of `router` (advanced_sales_agent.py lines 100-113),
applied to the already-lowered question. -/
def routerCore (q : String) (columns : List String) : Intent :=
  let monthColumns := columns.filter isMonthCol
  if strContains q "product" && (strContains q "sales" || strContains q "sell") then
    Intent.productSales
  else if strContains q "top" && (strContains q "product" || strContains q "selling") then
    Intent.topProducts
  else if strContains q "month" || monthColumns.any (fun m => strContains q m) then
    Intent.monthlySales
  else
    Intent.generalQuery

/-- `router` (advanced_sales_agent.py lines 95-113): lower the question once,
then run the branch cascade against the table's column names. -/
def router (question : String) (columns : List String) : Intent :=
  routerCore (pyLower question) columns

/-- C1: classification is total (the function always returns one of the four
intents), case-insensitive (it depends on the question only through its
lowering), and the rules fire in order with the first match winning:
rule 1 ("product" and ("sales" or "sell")) gives ProductSales; otherwise
rule 2 ("top" and ("product" or "selling")) gives TopProducts; otherwise
rule 3 ("month", or some column matching the period pattern occurring in the
question) gives MonthlySales; otherwise GeneralQuery.  A question satisfying
both rule 1 and rule 2 resolves to ProductSales. -/
theorem router_rule_order (q1 q2 question : String) (columns : List String) :
    (pyLower q1 = pyLower q2 → router q1 columns = router q2 columns)
    ∧ ((strContains (pyLower question) "product"
          && (strContains (pyLower question) "sales"
              || strContains (pyLower question) "sell")) = true
        → router question columns = Intent.productSales)
    ∧ ((strContains (pyLower question) "product"
          && (strContains (pyLower question) "sales"
              || strContains (pyLower question) "sell")) = false
        → (strContains (pyLower question) "top"
            && (strContains (pyLower question) "product"
                || strContains (pyLower question) "selling")) = true
        → router question columns = Intent.topProducts)
    ∧ ((strContains (pyLower question) "product"
          && (strContains (pyLower question) "sales"
              || strContains (pyLower question) "sell")) = false
        → (strContains (pyLower question) "top"
            && (strContains (pyLower question) "product"
                || strContains (pyLower question) "selling")) = false
        → (strContains (pyLower question) "month"
            || (columns.filter isMonthCol).any (fun m => strContains (pyLower question) m)) = true
        → router question columns = Intent.monthlySales)
    ∧ ((strContains (pyLower question) "product"
          && (strContains (pyLower question) "sales"
              || strContains (pyLower question) "sell")) = false
        → (strContains (pyLower question) "top"
            && (strContains (pyLower question) "product"
                || strContains (pyLower question) "selling")) = false
        → (strContains (pyLower question) "month"
            || (columns.filter isMonthCol).any (fun m => strContains (pyLower question) m)) = false
        → router question columns = Intent.generalQuery)
    ∧ ((strContains (pyLower question) "product"
          && (strContains (pyLower question) "sales"
              || strContains (pyLower question) "sell")) = true
        → (strContains (pyLower question) "top"
            && (strContains (pyLower question) "product"
                || strContains (pyLower question) "selling")) = true
        → router question columns = Intent.productSales) := by
  refine ⟨fun h => by unfold router; rw [h], fun h1 => ?_, fun h1 h2 => ?_,
    fun h1 h2 h3 => ?_, fun h1 h2 h3 => ?_, fun h1 _ => ?_⟩
  · simp only [router, routerCore]
    rw [if_pos h1]
  · simp only [router, routerCore]
    rw [if_neg (by simp [h1]), if_pos h2]
  · simp only [router, routerCore]
    rw [if_neg (by simp [h1]), if_neg (by simp [h2]), if_pos h3]
  · simp only [router, routerCore]
    rw [if_neg (by simp [h1]), if_neg (by simp [h2]), if_neg (show ¬_ by rw [h3]; decide)]
  · simp only [router, routerCore]
    rw [if_pos h1]

/-- Concrete instances of the router rules, discharging each rule's
hypotheses on explicit questions and columns. -/
theorem router_rule_order_inst :
    router "Which products sell most" [] = Intent.productSales
    ∧ router "Top products" [] = Intent.topProducts
    ∧ router "Revenue for 2021-07" ["2021-07"] = Intent.monthlySales
    ∧ router "hello there" ["2021-07"] = Intent.generalQuery :=
  ⟨(router_rule_order "a" "a" "Which products sell most" []).2.1 (by decide),
   (router_rule_order "a" "a" "Top products" []).2.2.1 (by decide) (by decide),
   (router_rule_order "a" "a" "Revenue for 2021-07" ["2021-07"]).2.2.2.1
     (by decide) (by decide) (by decide),
   (router_rule_order "a" "a" "hello there" ["2021-07"]).2.2.2.2.1
     (by decide) (by decide) (by decide)⟩

/-- A cell of a data column: a numeric value, or `none` for a missing value
(NaN).  (Non-numeric text cells are treated separately; see `pandasRowSum`.) -/
abbrev Cell := Option ℚ

/-- A row of the table: the `Product Name` cell and the cells of the
remaining columns, in column order. -/
structure Row where
  productName : String
  cells : List Cell
deriving DecidableEq

/-- The loaded table: the names of the columns after `Product Name`, and the
rows.  Rows are rectangular: `cells` lines up with `dataCols`. -/
structure Table where
  dataCols : List String
  rows : List Row
deriving DecidableEq

/-- `data.columns`: the `Product Name` column first, then the data columns. -/
def Table.columns (t : Table) : List String :=
  "Product Name" :: t.dataCols

/-- The product test both agents use on a row:
`str(product).lower() in question.lower()`. -/
def productMatches (question : String) (r : Row) : Bool :=
  strContains (pyLower question) (pyLower r.productName)

/-- One entry of the product-sales result: `{"product": ..., "sales": {...}}`
with the sales mapping in column order. -/
structure ProductRecord where
  product : String
  sales : List (String × Cell)
deriving DecidableEq

/-- Result of the product-sales handler: the not-found message or the list of
records. -/
inductive ProductSalesResult where
  | notFound (msg : String)
  | found (records : List ProductRecord)
deriving DecidableEq

/-- `get_product_sales` (advanced_sales_agent.py lines 38-58): collect every
`Product Name` value occurring in the lowered question; if none, the
not-found message; otherwise one record per collected name, built from the
first row carrying that name (`to_dict(orient="records")[0]` of the rows
equal to the name), pairing each data column with its cell. -/
def get_product_sales (question : String) (t : Table) : ProductSalesResult :=
  let products := (t.rows.filter (productMatches question)).map (fun r => r.productName)
  if products.isEmpty then
    ProductSalesResult.notFound "No matching products found in the data."
  else
    ProductSalesResult.found (products.filterMap (fun p =>
      match t.rows.find? (fun r => r.productName == p) with
      | some r => some ⟨p, t.dataCols.zip r.cells⟩
      | none => none))

/-- A `filterMap` whose function is pointwise `some` is a `map`. -/
theorem filterMap_eq_map_of_forall {α β : Type} {f : α → Option β} {g : α → β} :
    ∀ {l : List α}, (∀ a ∈ l, f a = some (g a)) → l.filterMap f = l.map g := by
  intro l
  induction l with
  | nil => intro _; rfl
  | cons a l ih =>
      intro h
      rw [List.filterMap_cons, List.map_cons, h a (by simp), ih (fun b hb => h b (by simp [hb]))]

/-- C2 (amended): the handler returns the not-found message exactly when no
row's lowered product name occurs in the lowered question (hence always on an
empty table); otherwise it returns one record per matching row, in row order,
each record pairing the matched name with the data cells of the first row
carrying that name. -/
theorem get_product_sales_all_matches (question : String) (t : Table) :
    (get_product_sales question t
        = ProductSalesResult.notFound "No matching products found in the data."
      ↔ t.rows.filter (productMatches question) = [])
    ∧ (t.rows.filter (productMatches question) ≠ [] →
        get_product_sales question t = ProductSalesResult.found
          ((t.rows.filter (productMatches question)).map (fun r =>
            ⟨r.productName,
              t.dataCols.zip
                (((t.rows.find? (fun r2 => r2.productName == r.productName)).getD r).cells)⟩))) := by
  constructor
  · by_cases h : t.rows.filter (productMatches question) = []
    · simp [get_product_sales, h]
    · simp [get_product_sales, h]
  · intro h
    have key : ∀ r ∈ t.rows.filter (productMatches question),
        (fun p =>
          match t.rows.find? (fun r2 => r2.productName == p) with
          | some r0 => some (ProductRecord.mk p (t.dataCols.zip r0.cells))
          | none => none) r.productName
        = some (ProductRecord.mk r.productName
            (t.dataCols.zip
              (((t.rows.find? (fun r2 => r2.productName == r.productName)).getD r).cells))) := by
      intro r hr
      have hmem : r ∈ t.rows := List.mem_of_mem_filter hr
      have hsome : (t.rows.find? (fun r2 => r2.productName == r.productName)).isSome :=
        List.find?_isSome.mpr ⟨r, hmem, by simp⟩
      obtain ⟨r0, hr0⟩ := Option.isSome_iff_exists.mp hsome
      simp [hr0]
    simp only [get_product_sales, List.isEmpty_eq_true, List.map_eq_nil_iff, h, if_false]
    rw [List.filterMap_map]
    exact congrArg ProductSalesResult.found (filterMap_eq_map_of_forall (fun r hr => key r hr))

/-- The two-row table of the spec's product-handler example. -/
def tblTwoRows : Table :=
  ⟨["2021-07"], [⟨"PC-1000", [some 10]⟩, ⟨"PC-1000-X", [some 20]⟩]⟩

/-- C2 counterexample: with rows `PC-1000` and `PC-1000-X` and the question
`"total sales for PC-1000"` (which contains `PC-1000` but not `PC-1000-X`),
only the first row matches — the result has one record, not two as claimed:
`pc-1000-x` is not a substring of the question. -/
theorem get_product_sales_single_match :
    get_product_sales "total sales for PC-1000" tblTwoRows
      = ProductSalesResult.found [⟨"PC-1000", [("2021-07", some 10)]⟩]
    ∧ (match get_product_sales "total sales for PC-1000" tblTwoRows with
       | ProductSalesResult.found rs => rs.length
       | ProductSalesResult.notFound _ => 0) ≠ 2 := by
  decide

/-- Concrete instances of the amended product-sales claim: the question
`"total sales for PC-1000-X"` matches both rows (two records), and the empty
table yields the not-found message. -/
theorem get_product_sales_all_matches_inst :
    get_product_sales "total sales for PC-1000-X" tblTwoRows
      = ProductSalesResult.found
          [⟨"PC-1000", [("2021-07", some 10)]⟩, ⟨"PC-1000-X", [("2021-07", some 20)]⟩]
    ∧ get_product_sales "total product sales" ⟨["2021-07"], []⟩
      = ProductSalesResult.notFound "No matching products found in the data." :=
  ⟨((get_product_sales_all_matches "total sales for PC-1000-X" tblTwoRows).2
      (by decide)).trans (by decide),
   (get_product_sales_all_matches "total product sales" ⟨["2021-07"], []⟩).1.mpr (by decide)⟩

/-- Per-row `data[sales_columns].sum(axis=1)` over all data columns
(`data.columns[1:]`), a missing cell contributing 0 (`skipna`). -/
def rowTotal (r : Row) : ℚ :=
  (r.cells.map (fun c => c.getD 0)).sum

/-- Insert a pair in front of the first element whose second component is not
larger: one step of a stable descending sort. -/
def insertPairDesc {α : Type} (x : α × ℚ) : List (α × ℚ) → List (α × ℚ)
  | [] => [x]
  | y :: ys => if y.2 ≤ x.2 then x :: y :: ys else y :: insertPairDesc x ys

/-- Stable sort by second component, descending: ties keep the original
order.  This is the order `nlargest(n, col)` (default `keep="first"`) ranks
rows in. -/
def sortPairsDesc {α : Type} : List (α × ℚ) → List (α × ℚ)
  | [] => []
  | x :: xs => insertPairDesc x (sortPairsDesc xs)

/-- `get_top_products` (advanced_sales_agent.py lines 61-69): on a private
copy derive `Total Sales` as the per-row sum of the data columns, rank the
rows by it descending (earliest row first on ties) and keep the first five
`(Product Name, Total Sales)` pairs. -/
def get_top_products (t : Table) : List (String × ℚ) :=
  (sortPairsDesc (t.rows.map (fun r => (r.productName, rowTotal r)))).take 5

theorem mem_insertPairDesc {α : Type} {x y : α × ℚ} {l : List (α × ℚ)} :
    y ∈ insertPairDesc x l ↔ y = x ∨ y ∈ l := by
  induction l with
  | nil => simp [insertPairDesc]
  | cons a l ih =>
      by_cases h : a.2 ≤ x.2
      · simp [insertPairDesc, h, ih]
      · simp [insertPairDesc, h, ih]
        tauto

theorem pairwise_insertPairDesc {α : Type} {x : α × ℚ} {l : List (α × ℚ)}
    (hl : l.Pairwise (fun a b => b.2 ≤ a.2)) :
    (insertPairDesc x l).Pairwise (fun a b => b.2 ≤ a.2) := by
  induction l with
  | nil => simp [insertPairDesc]
  | cons a l ih =>
      by_cases h : a.2 ≤ x.2
      · rw [List.pairwise_cons] at hl
        simp only [insertPairDesc, if_pos h]
        refine List.pairwise_cons.mpr ⟨?_, List.pairwise_cons.mpr hl⟩
        intro z hz
        rcases List.mem_cons.mp hz with rfl | hz
        · exact h
        · exact le_trans (hl.1 z hz) h
      · simp only [insertPairDesc, if_neg h]
        rw [List.pairwise_cons] at hl ⊢
        refine ⟨?_, ih hl.2⟩
        intro z hz
        rcases mem_insertPairDesc.mp hz with rfl | hz
        · exact le_of_not_le h
        · exact hl.1 z hz

theorem pairwise_sortPairsDesc {α : Type} (l : List (α × ℚ)) :
    (sortPairsDesc l).Pairwise (fun a b => b.2 ≤ a.2) := by
  induction l with
  | nil => simp [sortPairsDesc]
  | cons x xs ih => exact pairwise_insertPairDesc ih

theorem insertPairDesc_perm {α : Type} (x : α × ℚ) (l : List (α × ℚ)) :
    (insertPairDesc x l).Perm (x :: l) := by
  induction l with
  | nil => exact List.Perm.refl _
  | cons a l ih =>
      by_cases h : a.2 ≤ x.2
      · simp [insertPairDesc, h]
      · simp only [insertPairDesc, if_neg h]
        exact (ih.cons a).trans (List.Perm.swap x a l)

theorem sortPairsDesc_perm {α : Type} (l : List (α × ℚ)) :
    (sortPairsDesc l).Perm l := by
  induction l with
  | nil => exact List.Perm.refl _
  | cons x xs ih => exact (insertPairDesc_perm x (sortPairsDesc xs)).trans (ih.cons x)

theorem filter_insertPairDesc {α : Type} (x : α × ℚ) (l : List (α × ℚ)) (v : ℚ) :
    (insertPairDesc x l).filter (fun p => decide (p.2 = v))
      = if x.2 = v then x :: l.filter (fun p => decide (p.2 = v))
        else l.filter (fun p => decide (p.2 = v)) := by
  induction l with
  | nil => by_cases hx : x.2 = v <;> simp [insertPairDesc, hx]
  | cons a l ih =>
      by_cases h : a.2 ≤ x.2
      · simp only [insertPairDesc, if_pos h]
        by_cases hx : x.2 = v <;> simp [List.filter_cons, hx]
      · simp only [insertPairDesc, if_neg h]
        rw [List.filter_cons, ih]
        by_cases hx : x.2 = v
        · have ha : ¬ a.2 = v := fun hav => h (le_of_eq (hav.trans hx.symm))
          simp [hx, ha]
        · by_cases ha : a.2 = v <;> simp [hx, ha]

theorem filter_sortPairsDesc {α : Type} (l : List (α × ℚ)) (v : ℚ) :
    (sortPairsDesc l).filter (fun p => decide (p.2 = v))
      = l.filter (fun p => decide (p.2 = v)) := by
  induction l with
  | nil => rfl
  | cons x xs ih =>
      simp only [sortPairsDesc]
      rw [filter_insertPairDesc, List.filter_cons]
      by_cases hx : x.2 = v <;> simp [hx, ih]

/-- C3: for every table the top-products handler returns an ordered list of
(product, total) pairs of length `min 5 (number of rows)`, sorted descending
by total; restricting the result to any fixed total value gives a prefix of
the rows carrying that total in original order (stable tie-break); it never
produces a not-found outcome, and on an empty table it returns the empty
list. -/
theorem get_top_products_spec (t : Table) :
    (get_top_products t).length = min 5 t.rows.length
    ∧ (get_top_products t).Pairwise (fun a b => b.2 ≤ a.2)
    ∧ (∀ v : ℚ, (get_top_products t).filter (fun p => decide (p.2 = v))
        <+: (t.rows.map (fun r => (r.productName, rowTotal r))).filter
              (fun p => decide (p.2 = v)))
    ∧ (t.rows = [] → get_top_products t = []) := by
  refine ⟨?_, ?_, ?_, ?_⟩
  · rw [get_top_products, List.length_take, (sortPairsDesc_perm _).length_eq,
      List.length_map]
  · exact List.Pairwise.sublist (List.take_sublist _ _) (pairwise_sortPairsDesc _)
  · intro v
    have hp := List.IsPrefix.filter (fun p => decide (p.2 = v))
      (List.take_prefix 5 (sortPairsDesc (t.rows.map (fun r => (r.productName, rowTotal r)))))
    rw [filter_sortPairsDesc] at hp
    exact hp
  · intro h
    simp [get_top_products, h, sortPairsDesc]

/-- A three-row table exercising the top-products ordering: totals 3, 5 and
3, with the tie between the first and third rows. -/
def tblTop : Table :=
  ⟨["2021-07", "2021-08"],
   [⟨"A", [some 1, some 2]⟩, ⟨"B", [some 5, none]⟩, ⟨"C", [some 3, some 0]⟩]⟩

/-- Concrete instances of the top-products claim: empty table gives the empty
list, the length is `min 5 3` on a three-row table, and the tied rows keep
their original order behind the larger total. -/
theorem get_top_products_spec_inst :
    get_top_products ⟨["2021-07"], []⟩ = []
    ∧ (get_top_products tblTop).length = min 5 tblTop.rows.length
    ∧ get_top_products tblTop = [("B", 5), ("A", 3), ("C", 3)] :=
  ⟨(get_top_products_spec ⟨["2021-07"], []⟩).2.2.2 rfl,
   (get_top_products_spec tblTop).1,
   by decide⟩

/-- The month candidates of `get_monthly_sales` (line 78): every column
except `Product Name` and `Total Sales`. -/
def monthCandidates (t : Table) : List String :=
  t.columns.filter (fun c => !(c == "Product Name") && !(c == "Total Sales"))

/-- Result of the monthly handler: the not-found message, or the
`(Product Name, month value)` records. -/
inductive MonthlyResult where
  | notFound (msg : String)
  | found (records : List (String × Cell))
deriving DecidableEq

/-- The record list of a monthly result (empty for the message case). -/
def MonthlyResult.records : MonthlyResult → List (String × Cell)
  | MonthlyResult.notFound _ => []
  | MonthlyResult.found rs => rs

/-- One admissible output of `sort_values(month, ascending=False)`: the
non-NaN rows sorted by value descending, then the NaN rows
(`na_position="last"`, in original order).  The call uses the default
`kind="quicksort"`, which promises no particular order among rows of equal
value, so this executable refinement fixes an arbitrary tie order and only
its order-insensitive properties (a descending-sorted permutation, missing
values last) are asserted of the program. -/
def sortCellPairsDesc (l : List (String × Cell)) : List (String × Cell) :=
  ((sortPairsDesc (l.filterMap (fun p => match p.2 with
      | some v => some (p.1, v)
      | none => none))).map (fun p => (p.1, some p.2)))
    ++ l.filter (fun p => !(p.2.isSome))

/-- `get_monthly_sales` (advanced_sales_agent.py lines 72-92): the first
candidate column whose name occurs verbatim in the raw question selects the
month; without one — and also when the selected name is the empty string,
since `if not found_month:` is a falsiness test — the not-found message;
otherwise every row's `(Product Name, value)` pair sorted by value
descending. -/
def get_monthly_sales (question : String) (t : Table) : MonthlyResult :=
  match (monthCandidates t).find? (fun m => strContains question m) with
  | none => MonthlyResult.notFound "No specific month mentioned in the question."
  | some m =>
      if m == "" then MonthlyResult.notFound "No specific month mentioned in the question."
      else
        let idx := t.dataCols.findIdx (fun c => c == m)
        MonthlyResult.found (sortCellPairsDesc
          (t.rows.map (fun r => (r.productName, r.cells.getD idx none))))

/-- Descending order on month cells with missing values last: everything is
at least a missing value, and among present values the later one is not
larger. -/
def cellGE (a b : String × Cell) : Prop :=
  match b.2 with
  | none => True
  | some y =>
      match a.2 with
      | none => False
      | some x => y ≤ x

theorem map_some_filterMap (l : List (String × Cell)) :
    (l.filterMap (fun p => match p.2 with
        | some v => some (p.1, v)
        | none => none)).map (fun p : String × ℚ => (p.1, some p.2))
      = l.filter (fun p => p.2.isSome) := by
  induction l with
  | nil => rfl
  | cons a l ih =>
      rcases a with ⟨s, c⟩
      rcases c with _ | w
      · simpa [List.filterMap_cons, List.filter_cons] using ih
      · simp [List.filterMap_cons, List.filter_cons, ih]

theorem pairwise_cellGE_of_none :
    ∀ {l : List (String × Cell)}, (∀ p ∈ l, p.2 = none) → l.Pairwise cellGE := by
  intro l
  induction l with
  | nil => intro _; exact List.Pairwise.nil
  | cons a l ih =>
      intro h
      refine List.pairwise_cons.mpr ⟨?_, ih (fun p hp => h p (by simp [hp]))⟩
      intro b hb
      have hb2 := h b (by simp [hb])
      simp [cellGE, hb2]

theorem sortCellPairsDesc_perm (l : List (String × Cell)) :
    (sortCellPairsDesc l).Perm l := by
  unfold sortCellPairsDesc
  have h1 := (sortPairsDesc_perm (l.filterMap (fun p => match p.2 with
      | some v => some (p.1, v)
      | none => none))).map (fun p : String × ℚ => (p.1, some p.2))
  rw [map_some_filterMap] at h1
  exact (h1.append_right _).trans (List.filter_append_perm _ l)

theorem pairwise_sortCellPairsDesc (l : List (String × Cell)) :
    (sortCellPairsDesc l).Pairwise cellGE := by
  have hnone : ∀ p ∈ l.filter (fun p => !(p.2.isSome)), p.2 = (none : Cell) := by
    intro p hp
    exact Option.not_isSome_iff_eq_none.mp (by simpa using (List.mem_filter.mp hp).2)
  unfold sortCellPairsDesc
  rw [List.pairwise_append]
  refine ⟨?_, pairwise_cellGE_of_none hnone, ?_⟩
  · rw [List.pairwise_map]
    exact (pairwise_sortPairsDesc _).imp (fun h => h)
  · intro a _ b hb
    simp [cellGE, hnone b hb]

/-- C5 (amended): the monthly handler answers the not-found message exactly
when no candidate column (a column other than `Product Name` and
`Total Sales`) occurs verbatim, case-sensitively, in the raw question, or
when the first occurring candidate is the empty-string column name (the
source tests `if not found_month:`, a Python falsiness test); when the first
matching candidate `m` is nonempty, the records are a permutation of all
`(Product Name, value of m)` pairs, sorted by value descending with missing
values last.  No relative order among rows of equal value is asserted: the
source sorts with the default quicksort, which guarantees none. -/
theorem get_monthly_sales_spec (question : String) (t : Table) :
    (get_monthly_sales question t
        = MonthlyResult.notFound "No specific month mentioned in the question."
      ↔ (∀ m ∈ monthCandidates t, strContains question m = false)
        ∨ (monthCandidates t).find? (fun m2 => strContains question m2) = some "")
    ∧ (∀ m, (monthCandidates t).find? (fun m2 => strContains question m2) = some m →
        m ≠ "" →
        ((get_monthly_sales question t).records).Perm
            (t.rows.map (fun r =>
              (r.productName, r.cells.getD (t.dataCols.findIdx (fun c => c == m)) none)))
          ∧ ((get_monthly_sales question t).records).Pairwise cellGE) := by
  constructor
  · cases hf : (monthCandidates t).find? (fun m2 => strContains question m2) with
    | none =>
        refine iff_of_true (by simp [get_monthly_sales, hf]) (Or.inl ?_)
        intro m hm
        simpa using List.find?_eq_none.mp hf m hm
    | some m =>
        by_cases hm : m = ""
        · subst hm
          exact iff_of_true (by simp [get_monthly_sales, hf]) (Or.inr rfl)
        · apply iff_of_false
          · simp only [get_monthly_sales, hf]
            rw [if_neg (by simp [hm])]
            simp
          · rintro (h | h)
            · have hpred := List.find?_some hf
              rw [h m (List.mem_of_find?_eq_some hf)] at hpred
              exact absurd hpred (by decide)
            · exact hm (by simpa using h)
  · intro m hf hm
    simp only [get_monthly_sales, hf]
    rw [if_neg (by simp [hm])]
    exact ⟨sortCellPairsDesc_perm _, pairwise_sortCellPairsDesc _⟩

/-- The monthly example table of the spec: columns `2021-07` and `2021-08`. -/
def tblMonthly : Table :=
  ⟨["2021-07", "2021-08"],
   [⟨"A", [some 1, some 9]⟩, ⟨"B", [some 5, some 2]⟩, ⟨"C", [some 3, some 4]⟩]⟩

/-- C5 counterexample: on a table with a column named by the empty string,
that candidate always matches (the empty string occurs in every question),
yet the handler answers the not-found message — `if not found_month:` is a
falsiness test — where the claim prescribes the sorted records. -/
theorem get_monthly_sales_empty_name :
    strContains "sales in July" "" = true
    ∧ "" ∈ monthCandidates ⟨[""], [⟨"A", [some 1]⟩]⟩
    ∧ get_monthly_sales "sales in July" ⟨[""], [⟨"A", [some 1]⟩]⟩
        = MonthlyResult.notFound "No specific month mentioned in the question." :=
  ⟨by decide, by decide, by decide⟩

/-- Concrete instances of the amended monthly claim: a question without a
month gives the not-found message, and `"sales in 2021-07"` ranks the rows
by the `2021-07` column descending. -/
theorem get_monthly_sales_spec_inst :
    get_monthly_sales "no period here" tblMonthly
      = MonthlyResult.notFound "No specific month mentioned in the question."
    ∧ (get_monthly_sales "sales in 2021-07" tblMonthly).records.Pairwise cellGE
    ∧ (get_monthly_sales "sales in 2021-07" tblMonthly).records
        = [("B", some 5), ("C", some 3), ("A", some 1)] :=
  ⟨(get_monthly_sales_spec "no period here" tblMonthly).1.mpr (Or.inl (by decide)),
   ((get_monthly_sales_spec "sales in 2021-07" tblMonthly).2 "2021-07"
      (by decide) (by decide)).2,
   by decide⟩

/-- Floor of a rational: Euclidean division of the numerator by the (always
positive) denominator. -/
def ratFloorZ (q : ℚ) : ℤ :=
  q.num.ediv (q.den : ℤ)

/-- Round half to even, the rounding of Python fixed-point formatting. -/
def roundHalfEven (q : ℚ) : ℤ :=
  let f := ratFloorZ q
  let frac := q - (f : ℚ)
  if frac < 1/2 then f
  else if (1 : ℚ)/2 < frac then f + 1
  else if Int.emod f 2 = 0 then f else f + 1

/-- Python `f"{total:.2f}"` on an exact value: fixed two decimals. -/
def formatFixed2 (q : ℚ) : String :=
  let n := roundHalfEven (q * 100)
  let sign := if n < 0 then "-" else ""
  let m := n.natAbs
  let frac := m % 100
  sign ++ toString (m / 100) ++ "." ++ (if frac < 10 then "0" else "") ++ toString frac

/-- The basic agent's per-row sum (basic_sales_agent.py lines 47-53): the sum
over the columns selected by name (`col != "Product Name"`), a missing cell
contributing 0. -/
def basicRowTotal (t : Table) (r : Row) : ℚ :=
  ((t.dataCols.zip r.cells).filterMap (fun p =>
    if p.1 == "Product Name" then none else some (p.2.getD 0))).sum

/-- `get_product_total_sales` (basic_sales_agent.py lines 27-54): take the
first row whose lowered name occurs in the lowered question; a missing or
falsy (empty) name answers the product-not-found message; otherwise the rows
equal to that name are selected, an empty selection would answer the no-data
message, and the first selected row's total is formatted with two decimals. -/
def get_product_total_sales (t : Table) (question : String) : String :=
  match t.rows.find? (productMatches question) with
  | none => "Product not found in the data."
  | some r =>
      if r.productName == "" then "Product not found in the data."
      else
        match t.rows.filter (fun r2 => r2.productName == r.productName) with
        | [] => "No sales data available for this product."
        | r0 :: _ => "Total sales for " ++ r.productName ++ ": "
            ++ formatFixed2 (basicRowTotal t r0)

/-- The first row the matching loop finds is also the first row carrying its
product name: an earlier row with the same name would itself have matched. -/
theorem find?_filter_head {question : String} {r : Row} :
    ∀ {l : List Row}, l.find? (productMatches question) = some r →
      ∃ tl, l.filter (fun r2 => r2.productName == r.productName) = r :: tl := by
  intro l
  induction l with
  | nil => intro h; simp at h
  | cons x xs ih =>
      intro h
      rw [List.find?_cons] at h
      cases hx : productMatches question x with
      | true =>
          simp only [hx] at h
          obtain rfl : x = r := by simpa using h
          refine ⟨xs.filter (fun r2 => r2.productName == x.productName), ?_⟩
          rw [List.filter_cons, if_pos (by simp)]
      | false =>
          simp only [hx] at h
          obtain ⟨tl, htl⟩ := ih h
          have hpr : productMatches question r = true := List.find?_some h
          have hne : (x.productName == r.productName) = false := by
            by_cases hb : x.productName = r.productName
            · exfalso
              have hx2 : productMatches question x = true := by
                rw [productMatches, hb]
                rw [productMatches] at hpr
                exact hpr
              rw [hx2] at hx
              exact absurd hx (by decide)
            · simp [hb]
          rw [List.filter_cons, if_neg (by simp [hne])]
          exact ⟨tl, htl⟩

/-- C6: when the matching loop selects row `r` (the first row, in table
order, whose lowered name occurs in the lowered question) and its name is
not empty, the answer is formatted from that single row's sum over the
non-product columns, with fixed two-decimal formatting. -/
theorem get_product_total_sales_first (t : Table) (question : String) (r : Row)
    (hfind : t.rows.find? (productMatches question) = some r)
    (hname : r.productName ≠ "") :
    get_product_total_sales t question
      = "Total sales for " ++ r.productName ++ ": " ++ formatFixed2 (basicRowTotal t r) := by
  obtain ⟨tl, htl⟩ := find?_filter_head hfind
  simp only [get_product_total_sales, hfind]
  rw [if_neg (by simp [hname]), htl]

/-- The two-row table of the first-match example, with the values of the
formatting example in the first row. -/
def tblBasic : Table :=
  ⟨["2021-07", "2021-08"],
   [⟨"PC-1000", [some 10.5, some 20.25]⟩, ⟨"PC-1000-X", [some 1, some 2]⟩]⟩

/-- Concrete instance of the first-match claim: with rows `PC-1000` then
`PC-1000-X` and the question `"total sales for PC-1000"`, only the first row
is reflected, and `[10.5, 20.25]` renders as `30.75`. -/
theorem get_product_total_sales_first_inst :
    get_product_total_sales tblBasic "total sales for PC-1000"
      = "Total sales for PC-1000: 30.75" :=
  (get_product_total_sales_first tblBasic "total sales for PC-1000"
    ⟨"PC-1000", [some 10.5, some 20.25]⟩ (by decide) (by decide)).trans (by decide)

/-- A string with the fixed prefix `"Total sales for "` differs from any
string whose first sixteen characters differ from that prefix. -/
theorem total_sales_msg_ne (s m : String) (hm : m.data.take 16 ≠ "Total sales for ".data) :
    ("Total sales for " ++ s) ≠ m := by
  intro h
  apply hm
  rw [← h, String.data_append, List.take_left' (by decide)]

/-- C7 (amended): the basic handler answers the product-not-found message
when no row's lowered name occurs in the lowered question, and also when the
first matching row's name is the empty string (Python falsiness); the
no-sales-data message is never returned — an identified product always
reaches the formatted sum, even with no data columns. -/
theorem get_product_total_sales_notfound (t : Table) (question : String) :
    (t.rows.find? (productMatches question) = none →
      get_product_total_sales t question = "Product not found in the data.")
    ∧ (∀ r, t.rows.find? (productMatches question) = some r → r.productName = "" →
        get_product_total_sales t question = "Product not found in the data.")
    ∧ get_product_total_sales t question ≠ "No sales data available for this product." := by
  refine ⟨?_, ?_, ?_⟩
  · intro h
    simp only [get_product_total_sales, h]
  · intro r h hname
    simp only [get_product_total_sales, h]
    rw [if_pos (by simp [hname])]
  · cases hf : t.rows.find? (productMatches question) with
    | none =>
        simp only [get_product_total_sales, hf]
        decide
    | some r =>
        by_cases hname : r.productName = ""
        · simp only [get_product_total_sales, hf]
          rw [if_pos (by simp [hname])]
          decide
        · obtain ⟨tl, htl⟩ := find?_filter_head hf
          simp only [get_product_total_sales, hf]
          rw [if_neg (by simp [hname]), htl]
          exact total_sales_msg_ne _ _ (by decide)

/-- Concrete instances of the amended basic-handler claim: an unmatched
question, a matching row whose name is empty, and the unreachability of the
no-sales-data message on a concrete call. -/
theorem get_product_total_sales_notfound_inst :
    get_product_total_sales tblBasic "what is happening"
      = "Product not found in the data."
    ∧ get_product_total_sales ⟨[], [⟨"", [some 5]⟩]⟩ "anything"
      = "Product not found in the data."
    ∧ get_product_total_sales tblBasic "total sales for PC-1000"
      ≠ "No sales data available for this product." :=
  ⟨(get_product_total_sales_notfound tblBasic "what is happening").1 (by decide),
   (get_product_total_sales_notfound ⟨[], [⟨"", [some 5]⟩]⟩ "anything").2.1
     ⟨"", [some 5]⟩ (by decide) rfl,
   (get_product_total_sales_notfound tblBasic "total sales for PC-1000").2.2⟩

/-- A one-row table with no data columns at all. -/
def tblNoCols : Table :=
  ⟨[], [⟨"PC-1000", []⟩]⟩

/-- C7 counterexample: with no summable columns the handler does not answer
the no-sales-data message as claimed — the empty sum is 0 and the handler
formats it. -/
theorem get_product_total_sales_no_columns :
    get_product_total_sales tblNoCols "pc-1000" = "Total sales for PC-1000: 0.00"
    ∧ "Total sales for PC-1000: 0.00" ≠ "No sales data available for this product." := by
  constructor
  · decide
  · decide

/-- C10: whenever the identification loop selects a product, filtering the
table by equality with its name keeps at least one row, so the
empty-selection branch can never fire. -/
theorem basic_filter_nonempty (t : Table) (question : String) (r : Row)
    (h : t.rows.find? (productMatches question) = some r) :
    t.rows.filter (fun r2 => r2.productName == r.productName) ≠ [] := by
  obtain ⟨tl, htl⟩ := find?_filter_head h
  simp [htl]

/-- Concrete instance of the nonempty-selection claim. -/
theorem basic_filter_nonempty_inst :
    tblBasic.rows.filter
      (fun r2 => r2.productName == (Row.mk "PC-1000" [some 10.5, some 20.25]).productName)
      ≠ [] :=
  basic_filter_nonempty tblBasic "total sales for PC-1000"
    ⟨"PC-1000", [some 10.5, some 20.25]⟩ (by decide)

/-- The header-repair loop of `load_excel_data` (sales_data_loader.py lines
23-36), with the Python dict `seen` as a partial map: a missing (NaN) header
becomes `"unnamed"` without touching `seen`; a repeated header `h` becomes
`h_k` on its k-th repetition; a fresh header keeps its name.  The later date
handling (lines 40-52) rewrites only column values, never the names set at
line 36, so this is the loaded frame's column list. -/
def dedupGo (seen : String → Option Nat) : List (Option String) → List String
  | [] => []
  | none :: rest => "unnamed" :: dedupGo seen rest
  | some h :: rest =>
      match seen h with
      | some n => (h ++ "_" ++ toString (n + 1))
          :: dedupGo (fun h2 => if h2 = h then some (n + 1) else seen h2) rest
      | none => h :: dedupGo (fun h2 => if h2 = h then some 0 else seen h2) rest

/-- Column names `load_excel_data` produces from the raw header row (`none`
is a NaN header). -/
def load_excel_columns (headers : List (Option String)) : List String :=
  dedupGo (fun _ => none) headers

/-- The names as the amended claim words them: a missing header is always
`"unnamed"`; a header seen `k` times before becomes `h_k`; a first
occurrence keeps its name; no name is date-normalised. -/
def namesFrom (c : String → Nat) : List (Option String) → List String
  | [] => []
  | none :: rest => "unnamed" :: namesFrom c rest
  | some h :: rest =>
      (if c h = 0 then h else h ++ "_" ++ toString (c h))
        :: namesFrom (fun h2 => if h2 = h then c h + 1 else c h2) rest

theorem dedupGo_eq_namesFrom :
    ∀ (l : List (Option String)) (c : String → Nat) (seen : String → Option Nat),
      (∀ s, seen s = if c s = 0 then none else some (c s - 1)) →
      dedupGo seen l = namesFrom c l := by
  intro l
  induction l with
  | nil => intro c seen hinv; rfl
  | cons a rest ih =>
      intro c seen hinv
      cases a with
      | none =>
          simp only [dedupGo, namesFrom]
          rw [ih c seen hinv]
      | some h =>
          by_cases h0 : c h = 0
          · have hs : seen h = none := by rw [hinv h, if_pos h0]
            simp only [dedupGo, namesFrom, hs, if_pos h0]
            refine congrArg (List.cons h) (ih _ _ ?_)
            intro s
            by_cases hsh : s = h
            · subst hsh
              simp [h0]
            · simp only [if_neg hsh]
              exact hinv s
          · have hs : seen h = some (c h - 1) := by rw [hinv h, if_neg h0]
            have hsucc : c h - 1 + 1 = c h := Nat.sub_add_cancel (Nat.pos_of_ne_zero h0)
            simp only [dedupGo, namesFrom, hs, if_neg h0, hsucc]
            refine congrArg (List.cons (h ++ "_" ++ toString (c h))) (ih _ _ ?_)
            intro s
            by_cases hsh : s = h
            · subst hsh
              simp [hsucc]
            · simp only [if_neg hsh]
              exact hinv s

theorem dedupGo_length :
    ∀ (l : List (Option String)) (seen : String → Option Nat),
      (dedupGo seen l).length = l.length := by
  intro l
  induction l with
  | nil => intro seen; rfl
  | cons a rest ih =>
      intro seen
      cases a with
      | none => simp [dedupGo, ih]
      | some h => cases hs : seen h <;> simp [dedupGo, hs, ih]

/-- C8 (amended): the loader's column names keep the header row's length;
every missing header becomes the fixed placeholder `"unnamed"` (without
deduplication), the k-th repetition of a non-missing header `h` becomes
`h_k`, a first occurrence keeps its name, and no name is normalised to the
`YYYY-MM` form — date normalisation touches only the column values. -/
theorem load_excel_columns_spec (headers : List (Option String)) :
    load_excel_columns headers = namesFrom (fun _ => 0) headers
    ∧ (load_excel_columns headers).length = headers.length :=
  ⟨dedupGo_eq_namesFrom headers (fun _ => 0) (fun _ => none) (fun _ => rfl),
   dedupGo_length headers (fun _ => none)⟩

/-- C8 counterexample: two NaN headers both become `"unnamed"` — the
resulting names are not distinct — and the date-like header `2021-07-15`
keeps its name instead of becoming the canonical `2021-07`. -/
theorem load_excel_columns_counterexample :
    load_excel_columns [none, none, some "2021-07-15"]
      = ["unnamed", "unnamed", "2021-07-15"]
    ∧ ¬ (load_excel_columns [none, none, some "2021-07-15"]).Nodup
    ∧ "2021-07" ∉ load_excel_columns [none, none, some "2021-07-15"] :=
  ⟨by decide, by decide, by decide⟩

/-- A raw cell of the object-dtype frame `read_excel(header=None)` yields:
a number, a text cell, or NaN. -/
inductive CellV where
  | num (q : ℚ)
  | str (s : String)
  | nan
deriving DecidableEq

/-- A Python value a row reduction can hold. -/
inductive PyVal where
  | num (q : ℚ)
  | str (s : String)
deriving DecidableEq

/-- Python `+` on those values: numbers add, strings concatenate, a mix
raises `TypeError`. -/
def pyAdd : PyVal → PyVal → Except String PyVal
  | PyVal.num a, PyVal.num b => Except.ok (PyVal.num (a + b))
  | PyVal.str a, PyVal.str b => Except.ok (PyVal.str (a ++ b))
  | _, _ => Except.error "TypeError: unsupported operand types for +"

/-- `DataFrame.sum(axis=1)` on one object-dtype row (pandas 2.x `nansum`):
the NaN mask is filled with 0 and the remaining Python objects are reduced
with `+`; an empty row sums to 0. -/
def pandasRowSum (cells : List CellV) : Except String PyVal :=
  match cells.map (fun c => match c with
      | CellV.nan => PyVal.num 0
      | CellV.num q => PyVal.num q
      | CellV.str s => PyVal.str s) with
  | [] => Except.ok (PyVal.num 0)
  | v :: rest => rest.foldl (fun acc w => acc.bind (fun a => pyAdd a w)) (Except.ok v)

/-- C4: the missing-cell half of the claim holds — a NaN cell sums as 0,
both in the pandas reduction and in the numeric model `rowTotal` — but a
text cell next to a numeric cell makes the reduction raise `TypeError`
rather than count as 0, so the handler is not exception-free. -/
theorem pandasRowSum_raises :
    pandasRowSum [CellV.num 5, CellV.nan] = Except.ok (PyVal.num 5)
    ∧ pandasRowSum [CellV.num 5, CellV.str "n/a"]
        = Except.error "TypeError: unsupported operand types for +"
    ∧ rowTotal ⟨"PC-1000", [some 5, none]⟩ = 5 :=
  ⟨by simp [pandasRowSum, pyAdd, Except.bind], rfl, by decide⟩

/-- `data.copy()` followed by `data["Total Sales"] = data[sales_columns]
.sum(axis=1)` in `get_top_products`: the private copy gains the derived
column; the caller's frame is untouched. -/
def addTotalSales (t : Table) : Table :=
  { dataCols := t.dataCols ++ ["Total Sales"],
    rows := t.rows.map (fun r => { r with cells := r.cells ++ [some (rowTotal r)] }) }

/-- The caller-visible state after `get_product_sales` returns: the handler
only reads `state["question"]` and `state["data"]`. -/
def get_product_sales_call (question : String) (t : Table) : ProductSalesResult × Table :=
  (get_product_sales question t, t)

/-- The caller-visible state after `get_top_products` returns: the derived
column lives on the copy only, so the caller keeps `t`. -/
def get_top_products_call (t : Table) : (List (String × ℚ)) × Table :=
  (get_top_products t, t)

/-- The caller-visible state after `get_monthly_sales` returns: the handler
only reads the frame (`sort_values` returns a new frame). -/
def get_monthly_sales_call (question : String) (t : Table) : MonthlyResult × Table :=
  (get_monthly_sales question t, t)

/-- C9: each handler call hands the caller's table back exactly as it was —
rows, columns and cells unchanged — and the derived `Total Sales` column
appears on the handler's private copy, never on the shared table. -/
theorem handlers_preserve_table (question : String) (t : Table) :
    (get_product_sales_call question t).2 = t
    ∧ (get_top_products_call t).2 = t
    ∧ (get_monthly_sales_call question t).2 = t
    ∧ ("Total Sales" ∉ t.dataCols →
        "Total Sales" ∈ (addTotalSales t).dataCols
        ∧ "Total Sales" ∉ (get_top_products_call t).2.dataCols) :=
  ⟨rfl, rfl, rfl, fun h => ⟨by simp [addTotalSales], h⟩⟩

/-- Concrete instance of the frame-preservation claim. -/
theorem handlers_preserve_table_inst :
    (get_top_products_call tblTop).2 = tblTop
    ∧ "Total Sales" ∈ (addTotalSales tblTop).dataCols
    ∧ "Total Sales" ∉ (get_top_products_call tblTop).2.dataCols :=
  ⟨(handlers_preserve_table "x" tblTop).2.1,
   ((handlers_preserve_table "x" tblTop).2.2.2 (by decide)).1,
   ((handlers_preserve_table "x" tblTop).2.2.2 (by decide)).2⟩
